import Mathlib

/-!
# Status metrics of the kube-aggregator availability controller

A shallow embedding of
`staging/src/k8s.io/kube-aggregator/pkg/controllers/status/metrics.go`.

* A Go channel the function sends on is the list of values sent so far;
  `ch <- x` appends `x`.
* The lister is an interface value.  It is a handle naming an Indexed View;
  what `List` returns is read from the `World` at the moment of the call,
  and every call is recorded in the world's `listCalls`.
* `[]*APIService` is a list of entities; the pointers are non-nil, as every
  entry an informer cache hands out is.
* The `float64` literals `0.0` and `1.0` are the rationals `0` and `1`.
* `sync.Once` is its `done` flag; a Go panic is the `error` side of `Except`.
-/

set_option autoImplicit false

namespace apiserver

/-! ## Types of `apiregistration/v1` -/

/-- Modelled from the spec: the condition-type identifier of
`apiregistration/v1`, a Go string type whose declaration is outside the
translated file. -/
abbrev APIServiceConditionType := String

/-- Modelled from the spec: the boolean-like status of a condition, a Go
string type, so that values other than the three named ones exist. -/
abbrev ConditionStatus := String

/-- Constant `apiregistrationv1.Available`. -/
def Available : APIServiceConditionType := "Available"

/-- Constant `ConditionTrue`. -/
def ConditionTrue : ConditionStatus := "True"

/-- Constant `ConditionFalse`. -/
def ConditionFalse : ConditionStatus := "False"

/-- Constant `ConditionUnknown`. -/
def ConditionUnknown : ConditionStatus := "Unknown"

/-- Modelled from the spec: a typed condition "(type, boolean-like status)";
the struct declaration is outside the translated file. -/
structure APIServiceCondition where
  Type_ : APIServiceConditionType
  Status : ConditionStatus
deriving DecidableEq

/-- Modelled from the spec: the status of an entity, "a set of typed
conditions", held as the Go slice it is. -/
structure APIServiceStatus where
  Conditions : List APIServiceCondition
deriving DecidableEq

/-- Modelled from the spec: an Entity, "a named resource with a status";
`Name` is `ObjectMeta.Name`. -/
structure APIService where
  Name : String
  Status : APIServiceStatus
deriving DecidableEq

/-- Modelled from the spec: the helper `GetAPIServiceConditionByType` of the
`apiregistration/v1/helper` package, which is outside the translated file:
the condition of the given type, if the entity has one. -/
def GetAPIServiceConditionByType (apiService : APIService)
    (conditionType : APIServiceConditionType) : Option APIServiceCondition :=
  apiService.Status.Conditions.find? (fun c => c.Type_ == conditionType)

/-- Modelled from the spec: the availability evaluator
`IsAPIServiceConditionTrue` of the `apiregistration/v1/helper` package, which
is outside the translated file: "a pure function taking an Entity and a
condition-type identifier, returning a boolean indicating whether that
condition is currently true", total over all entity states. -/
def IsAPIServiceConditionTrue (apiService : APIService)
    (conditionType : APIServiceConditionType) : Bool :=
  match GetAPIServiceConditionByType apiService conditionType with
  | none => false
  | some condition => condition.Status == ConditionTrue

/-! ## Types of `component-base/metrics` -/

/-- Stability classes of a metric. -/
inductive StabilityLevel where
  | INTERNAL
  | ALPHA
  | BETA
  | STABLE
deriving DecidableEq

/-- Modelled from the spec: a Metric Descriptor, "name, help text, label
names, stability classification"; the fields are the arguments of
`metrics.NewDesc`. -/
structure Desc where
  fqName : String
  help : String
  variableLabels : List String
  constLabels : List (String × String)
  stabilityLevel : StabilityLevel
  deprecatedVersion : String
deriving DecidableEq

/-- Value types of a constant metric. -/
inductive ValueType where
  | CounterValue
  | GaugeValue
  | UntypedValue
deriving DecidableEq

/-- Modelled from the spec: a Metric Sample, "metric descriptor + label
values + numeric value"; the fields are the arguments of
`metrics.NewLazyConstMetric`. -/
structure Metric where
  desc : Desc
  valueType : ValueType
  value : ℚ
  labelValues : List String
deriving DecidableEq

/-- Modelled from the spec: `metrics.NewLazyConstMetric`, which binds "the
numeric value and label ... into the sample at emission time". -/
def NewLazyConstMetric (desc : Desc) (valueType : ValueType) (value : ℚ)
    (labelValues : List String) : Metric :=
  { desc := desc, valueType := valueType, value := value, labelValues := labelValues }

/-- Options of a counter family. -/
structure CounterOpts where
  Name : String
  Help : String
  StabilityLevel : StabilityLevel
deriving DecidableEq

/-- A counter family: its options and label names. -/
structure CounterVec where
  opts : CounterOpts
  labels : List String
deriving DecidableEq

/-- Constructor `metrics.NewCounterVec`. -/
def NewCounterVec (opts : CounterOpts) (labels : List String) : CounterVec :=
  { opts := opts, labels := labels }

/-! ## The Indexed View -/

/-- Label selectors; the collector only ever builds `Everything`. -/
inductive Selector where
  | Everything
  | Nothing
deriving DecidableEq

/-- Modelled from the spec: the read handle to an Indexed View
(`listers.APIServiceLister`); the number names the view it reads. -/
structure APIServiceLister where
  view : Nat
deriving DecidableEq

/-- Go errors; `none` is `nil`. -/
abbrev error := String

/-- What is outside the collector: the current content of every Indexed View
(what "list all entities matching a selector" returns, "a sequence of Entity
and an error") and the record of the `List` calls made so far. -/
structure World where
  views : APIServiceLister → Selector → List APIService × Option error
  listCalls : List (APIServiceLister × Selector)

/-- Modelled from the spec: the single consumed operation of the Indexed View,
`List(selector)`: it reads the view and is recorded in the world. -/
def APIServiceLister.List (l : APIServiceLister) (selector : Selector) (w : World) :
    (List APIService × Option error) × World :=
  (w.views l selector, { w with listCalls := w.listCalls ++ [(l, selector)] })

/-! ## metrics.go -/

/-- Counter family `unavailableCounter`. -/
def unavailableCounter : CounterVec :=
  NewCounterVec
    { Name := "aggregator_unavailable_apiservice_total"
      Help := "Counter of APIServices which are marked as unavailable broken down by APIService name and reason."
      StabilityLevel := StabilityLevel.ALPHA }
    ["name", "reason"]

/-- Descriptor `unavailableGaugeDesc`. -/
def unavailableGaugeDesc : Desc :=
  { fqName := "aggregator_unavailable_apiservice"
    help := "Gauge of APIServices which are marked as unavailable broken down by APIService name."
    variableLabels := ["name"]
    constLabels := []
    stabilityLevel := StabilityLevel.ALPHA
    deprecatedVersion := "" }

/-- Struct `apiServiceStatusCollector`; the embedded `BaseStableCollector`
carries no field this file reads or writes. -/
structure apiServiceStatusCollector where
  apiServiceLister : APIServiceLister
deriving DecidableEq

/-- Constructor `newAPIServiceStatusCollector`. -/
def newAPIServiceStatusCollector (apiServiceLister : APIServiceLister) :
    apiServiceStatusCollector :=
  { apiServiceLister := apiServiceLister }

/-- Method `DescribeWithStability`: the collector after the call, the
descriptor channel after the call, the world after the call. -/
def DescribeWithStability (c : apiServiceStatusCollector) (ch : List Desc) (w : World) :
    apiServiceStatusCollector × List Desc × World :=
  (c, ch ++ [unavailableGaugeDesc], w)

/-- Body of the `for ... range apiServiceList` loop of `CollectWithStability`:
one iteration, on the channel `ch`. -/
def collectStep (ch : List Metric) (apiService : APIService) : List Metric :=
  let isAvailable := IsAPIServiceConditionTrue apiService Available
  if isAvailable then
    ch ++ [NewLazyConstMetric unavailableGaugeDesc ValueType.GaugeValue 0 [apiService.Name]]
  else
    ch ++ [NewLazyConstMetric unavailableGaugeDesc ValueType.GaugeValue 1 [apiService.Name]]

/-- Method `CollectWithStability`: the collector after the call, the metric
channel after the call, the world after the call.  The error of `List` is
dropped, as `apiServiceList, _ := ...` does. -/
def CollectWithStability (c : apiServiceStatusCollector) (ch : List Metric) (w : World) :
    apiServiceStatusCollector × List Metric × World :=
  let r := c.apiServiceLister.List Selector.Everything w
  let apiServiceList := r.1.1
  (c, apiServiceList.foldl collectStep ch, r.2)

/-- The samples one pass of `CollectWithStability` emits: what the pass sends
on a channel that was empty before it. -/
def passSamples (c : apiServiceStatusCollector) (w : World) : List Metric :=
  (CollectWithStability c [] w).2.1

/-- The snapshot a pass of the collector `c` reads in the world `w`: the list
value returned by `List(labels.Everything())`, with or without an error. -/
def snapshot (c : apiServiceStatusCollector) (w : World) : List APIService :=
  (w.views c.apiServiceLister Selector.Everything).1

/-- The gauge sample of the unavailability family with one label value. -/
def gaugeSample (name : String) (value : ℚ) : Metric :=
  { desc := unavailableGaugeDesc, valueType := ValueType.GaugeValue,
    value := value, labelValues := [name] }

/-- The sample the loop body sends for one entity. -/
def sampleOf (apiService : APIService) : Metric :=
  gaugeSample apiService.Name (if IsAPIServiceConditionTrue apiService Available then 0 else 1)

/-- Earlier passes of one collector, each on a channel of its own and in the
world of its moment: the collector that is left, and what each pass emitted. -/
def passes (c : apiServiceStatusCollector) :
    List World → apiServiceStatusCollector × List (List Metric)
  | [] => (c, [])
  | w :: ws =>
    let r := CollectWithStability c [] w
    let rest := passes r.1 ws
    (rest.1, r.2.1 :: rest.2)

/-! ## Registration -/

/-- Go's `sync.Once`: whether `Do` has already run its function. -/
structure Once where
  done : Bool
deriving DecidableEq

/-- Method `Do` of `sync.Once` over a state `σ`: the function runs only when
the flag is not set, and the flag is set once it has run.  A panic of the
function leaves `Do` as a panic. -/
def Once.Do {σ : Type} (o : Once) (f : σ → Except String σ) (s : σ) :
    Except String (Once × σ) :=
  if o.done then
    Except.ok (o, s)
  else
    match f s with
    | Except.error e => Except.error e
    | Except.ok s1 => Except.ok ({ done := true }, s1)

/-- What this file attaches to the registry. -/
inductive Registrable where
  | stableCollector (c : apiServiceStatusCollector)
  | counterVec (v : CounterVec)
deriving DecidableEq

/-- The family names an attachment brings: for the collector, the name of the
descriptor `DescribeWithStability` sends. -/
def Registrable.fqNames : Registrable → List String
  | Registrable.stableCollector _ => [unavailableGaugeDesc.fqName]
  | Registrable.counterVec v => [v.opts.Name]

/-- Modelled from the spec: the process-wide metrics registry of
`legacyregistry`, which is outside the translated file: the attachments made
so far, in order. -/
structure Registry where
  attached : List Registrable
deriving DecidableEq

/-- The family names present in the registry. -/
def Registry.names (r : Registry) : List String :=
  r.attached.foldr (fun x acc => x.fqNames ++ acc) []

/-- The status collectors attached to the registry. -/
def Registry.collectors (r : Registry) : List apiServiceStatusCollector :=
  r.attached.filterMap (fun x =>
    match x with
    | Registrable.stableCollector c => some c
    | Registrable.counterVec _ => none)

/-- The counter families attached to the registry. -/
def Registry.counters (r : Registry) : List CounterVec :=
  r.attached.filterMap (fun x =>
    match x with
    | Registrable.stableCollector _ => none
    | Registrable.counterVec v => some v)

/-- Modelled from the spec: an attachment to the registry.  "Registration
failure (e.g., duplicate metric name already present in the registry from an
unrelated source) is a fatal programming error": it panics. -/
def Registry.mustAttach (r : Registry) (x : Registrable) : Except String Registry :=
  if x.fqNames.any (fun n => decide (n ∈ r.names)) then
    Except.error "duplicate metrics collector registration attempted"
  else
    Except.ok { attached := r.attached ++ [x] }

/-- Modelled from the spec: `legacyregistry.CustomMustRegister`, for the one
collector `Register` passes. -/
def legacyregistry.CustomMustRegister (c : apiServiceStatusCollector) (r : Registry) :
    Except String Registry :=
  r.mustAttach (Registrable.stableCollector c)

/-- Modelled from the spec: `legacyregistry.MustRegister`, for the one
counter family `Register` passes. -/
def legacyregistry.MustRegister (v : CounterVec) (r : Registry) : Except String Registry :=
  r.mustAttach (Registrable.counterVec v)

/-- The package-level state `Register` touches: `var registerMetrics sync.Once`
and the global registry. -/
structure Globals where
  registerMetrics : Once
  registry : Registry
deriving DecidableEq

/-- Function `Register`. -/
def Register (apiServiceLister : APIServiceLister) (g : Globals) : Except String Globals :=
  match g.registerMetrics.Do (fun r =>
      match legacyregistry.CustomMustRegister (newAPIServiceStatusCollector apiServiceLister) r with
      | Except.error e => Except.error e
      | Except.ok r1 => legacyregistry.MustRegister unavailableCounter r1) g.registry with
  | Except.error e => Except.error e
  | Except.ok (o, r) => Except.ok { registerMetrics := o, registry := r }

/-- A sequence of calls of `Register`, one after the other: the outcome of
each call.  A panic ends the process, so nothing follows it. -/
def registerCalls : List APIServiceLister → Globals → List (Except String Globals)
  | [], _ => []
  | l :: ls, g =>
    match Register l g with
    | Except.error e => [Except.error e]
    | Except.ok g1 => Except.ok g1 :: registerCalls ls g1

/-- The unregistered state: `registerMetrics` has not run and neither family
name is in the registry. -/
def Unregistered (g : Globals) : Prop :=
  g.registerMetrics.done = false ∧
    unavailableGaugeDesc.fqName ∉ g.registry.names ∧
    unavailableCounter.opts.Name ∉ g.registry.names

instance (g : Globals) : Decidable (Unregistered g) := by
  unfold Unregistered
  infer_instance

/-- The state every call of `Register` leaves, when the first call was made
with `l` in the state `g`. -/
def registered (l : APIServiceLister) (g : Globals) : Globals :=
  { registerMetrics := { done := true },
    registry := { attached := g.registry.attached ++
      [Registrable.stableCollector (newAPIServiceStatusCollector l),
       Registrable.counterVec unavailableCounter] } }

/-! ## Concrete data -/

/-- The entity `available` of `TestAPIServiceAvailabilityCollection`. -/
def availableAPIService : APIService :=
  { Name := "available",
    Status := { Conditions := [{ Type_ := Available, Status := ConditionTrue }] } }

/-- The entity `unavailable` of `TestAPIServiceAvailabilityCollection`. -/
def unavailableAPIService : APIService :=
  { Name := "unavailable",
    Status := { Conditions := [{ Type_ := Available, Status := ConditionFalse }] } }

/-- The lister of the test. -/
def testLister : APIServiceLister := { view := 0 }

/-- Another lister, of another view. -/
def otherLister : APIServiceLister := { view := 1 }

/-- The collector of the test. -/
def testCollector : apiServiceStatusCollector := newAPIServiceStatusCollector testLister

/-- The world of the test after both `Add` calls: the view `0` holds the two
entities, every other view is empty, and no list call has been made. -/
def testWorld : World :=
  { views := fun l _ =>
      if l.view = 0 then ([availableAPIService, unavailableAPIService], none) else ([], none),
    listCalls := [] }

/-- The world of the test after both `Delete` calls. -/
def emptyWorld : World :=
  { views := fun _ _ => ([], none), listCalls := [] }

/-- A world whose view `0` answers `List` with one entity and an error. -/
def failingWorld : World :=
  { views := fun l _ =>
      if l.view = 0 then ([availableAPIService], some "list failed") else ([], none),
    listCalls := [] }

/-- The state of the process before any call of `Register`, with an empty
registry. -/
def initialGlobals : Globals :=
  { registerMetrics := { done := false }, registry := { attached := [] } }

/-! ## The loop of `CollectWithStability` -/

theorem collectStep_eq (ch : List Metric) (a : APIService) :
    collectStep ch a = ch ++ [sampleOf a] := by
  unfold collectStep sampleOf gaugeSample NewLazyConstMetric
  by_cases h : IsAPIServiceConditionTrue a Available = true <;> simp [h]

theorem foldl_collectStep (l : List APIService) (ch : List Metric) :
    l.foldl collectStep ch = ch ++ l.map sampleOf := by
  induction l generalizing ch with
  | nil => simp
  | cons a t ih => simp [List.foldl_cons, ih, collectStep_eq]

theorem CollectWithStability_eq (c : apiServiceStatusCollector) (ch : List Metric) (w : World) :
    CollectWithStability c ch w =
      (c, ch ++ (snapshot c w).map sampleOf,
        { w with listCalls := w.listCalls ++ [(c.apiServiceLister, Selector.Everything)] }) := by
  simp [CollectWithStability, APIServiceLister.List, foldl_collectStep, snapshot]

theorem passSamples_eq (c : apiServiceStatusCollector) (w : World) :
    passSamples c w = (snapshot c w).map sampleOf := by
  simp [passSamples, CollectWithStability_eq]

theorem sampleOf_labelValues (a : APIService) : (sampleOf a).labelValues = [a.Name] := rfl

theorem filter_label_map (l : List APIService) (n : String) :
    (l.map sampleOf).filter (fun m => m.labelValues = [n]) =
      (l.filter (fun e => e.Name = n)).map sampleOf := by
  induction l with
  | nil => simp
  | cons a t ih =>
    by_cases h : a.Name = n
    · simp [List.filter_cons, sampleOf_labelValues, h, ih]
    · simp [List.filter_cons, sampleOf_labelValues, h, ih]

theorem filter_name_of_nodup (l : List APIService) (E : APIService) (hE : E ∈ l)
    (hn : (l.map (fun e => e.Name)).Nodup) :
    l.filter (fun e => e.Name = E.Name) = [E] := by
  induction l with
  | nil => simp at hE
  | cons a t ih =>
    simp only [List.map_cons, List.nodup_cons, List.mem_map, not_exists, not_and] at hn
    rcases List.mem_cons.mp hE with h | h
    · subst h
      have : t.filter (fun e => e.Name = E.Name) = [] := by
        simp only [List.filter_eq_nil_iff, decide_eq_true_eq]
        intro x hx hxe
        exact hn.1 x hx hxe
      simp [List.filter_cons, this]
    · have hne : a.Name ≠ E.Name := fun hc => hn.1 E h hc.symm
      simp [List.filter_cons, hne, ih h hn.2]

theorem sampleOf_of_true (E : APIService) (h : IsAPIServiceConditionTrue E Available = true) :
    sampleOf E = gaugeSample E.Name 0 := by
  simp [sampleOf, h]

theorem sampleOf_of_false (E : APIService) (h : IsAPIServiceConditionTrue E Available = false) :
    sampleOf E = gaugeSample E.Name 1 := by
  simp [sampleOf, h]

theorem mem_of_getElem?_eq_some {α : Type} (l : List α) (i : Nat) (a : α)
    (h : l[i]? = some a) : a ∈ l := by
  obtain ⟨hi, rfl⟩ := List.getElem?_eq_some_iff.mp h
  exact List.getElem_mem hi

/-- The facts about the sample of one listed entity that both availability
cases share. -/
theorem entity_sample (c : apiServiceStatusCollector) (w : World) (i : Nat) (E : APIService)
    (v : ℚ) (hE : (snapshot c w)[i]? = some E) (hv : sampleOf E = gaugeSample E.Name v) :
    (passSamples c w).length = (snapshot c w).length ∧
    (passSamples c w)[i]? = some (gaugeSample E.Name v) ∧
    ((passSamples c w).filter (fun m => m.labelValues = [E.Name])).length =
      ((snapshot c w).filter (fun e => e.Name = E.Name)).length ∧
    (((snapshot c w).map (fun e => e.Name)).Nodup →
      (passSamples c w).filter (fun m => m.labelValues = [E.Name]) = [gaugeSample E.Name v]) := by
  rw [passSamples_eq]
  refine ⟨by simp, ?_, ?_, ?_⟩
  · simp [List.getElem?_map, hE, hv]
  · rw [filter_label_map]; simp
  · intro hn
    rw [filter_label_map, filter_name_of_nodup _ E (mem_of_getElem?_eq_some _ _ _ hE) hn]
    simp [hv]

/-- The named ways in which the Available condition is not true all make the
evaluator answer `false`. -/
theorem not_true_cases (E : APIService)
    (h : IsAPIServiceConditionTrue E Available = false ∨
      E.Status.Conditions = [] ∨
      (∀ x ∈ E.Status.Conditions, x.Type_ ≠ Available) ∨
      (∃ x, GetAPIServiceConditionByType E Available = some x ∧
        (x.Status = ConditionFalse ∨ x.Status = ConditionUnknown ∨ x.Status ≠ ConditionTrue))) :
    IsAPIServiceConditionTrue E Available = false := by
  rcases h with h | h | h | ⟨x, hx, hs⟩
  · exact h
  · simp [IsAPIServiceConditionTrue, GetAPIServiceConditionByType, h]
  · have : GetAPIServiceConditionByType E Available = none := by
      simp only [GetAPIServiceConditionByType, List.find?_eq_none]
      intro x hx
      simpa using h x hx
    simp [IsAPIServiceConditionTrue, this]
  · have hne : x.Status ≠ ConditionTrue := by
      rcases hs with hs | hs | hs
      · rw [hs]; decide
      · rw [hs]; decide
      · exact hs
    simp [IsAPIServiceConditionTrue, hx, hne]

/-! ## Registration lemmas -/

theorem Register_of_unregistered (l : APIServiceLister) (g : Globals) (h : Unregistered g) :
    Register l g = Except.ok (registered l g) := by
  obtain ⟨hd, hg, hc⟩ := h
  have hne : unavailableCounter.opts.Name ≠ unavailableGaugeDesc.fqName := by decide
  have hnames : ∀ (r : Registry) (x : Registrable),
      Registry.names { attached := r.attached ++ [x] } = r.names ++ x.fqNames := by
    intro r x
    unfold Registry.names
    induction r.attached with
    | nil => simp
    | cons a t ih => simp [ih]
  simp [Register, Once.Do, hd, legacyregistry.CustomMustRegister, legacyregistry.MustRegister,
    Registry.mustAttach, Registrable.fqNames, hg, hc, hnames, hne, registered]

theorem Register_of_done (l : APIServiceLister) (g : Globals) (h : g.registerMetrics.done = true) :
    Register l g = Except.ok g := by
  simp [Register, Once.Do, h]

theorem registerCalls_of_done (ls : List APIServiceLister) (g : Globals)
    (h : g.registerMetrics.done = true) :
    registerCalls ls g = List.replicate ls.length (Except.ok g) := by
  induction ls with
  | nil => rfl
  | cons l t ih => simp [registerCalls, Register_of_done l g h, ih, List.replicate_succ]

theorem registerCalls_of_unregistered (l : APIServiceLister) (ls : List APIServiceLister)
    (g : Globals) (h : Unregistered g) :
    registerCalls (l :: ls) g = List.replicate (ls.length + 1) (Except.ok (registered l g)) := by
  simp [registerCalls, Register_of_unregistered l g h,
    registerCalls_of_done ls (registered l g) rfl, List.replicate_succ]

theorem collectors_of_no_gauge_name (r : Registry)
    (h : unavailableGaugeDesc.fqName ∉ r.names) : r.collectors = [] := by
  obtain ⟨l⟩ := r
  unfold Registry.names at h
  unfold Registry.collectors
  simp only at h ⊢
  induction l with
  | nil => rfl
  | cons a t ih =>
    cases a with
    | stableCollector c => simp [Registrable.fqNames] at h
    | counterVec v =>
      simp only [List.foldr_cons, List.mem_append, not_or] at h
      simpa using ih h.2

theorem counters_of_no_counter_name (r : Registry)
    (h : unavailableCounter.opts.Name ∉ r.names) : unavailableCounter ∉ r.counters := by
  obtain ⟨l⟩ := r
  unfold Registry.names at h
  unfold Registry.counters
  simp only at h ⊢
  induction l with
  | nil => simp
  | cons a t ih =>
    simp only [List.foldr_cons, List.mem_append, not_or] at h
    cases a with
    | stableCollector c => simpa using ih h.2
    | counterVec v =>
      have hv : unavailableCounter ≠ v := by
        intro hc
        apply h.1
        simp [Registrable.fqNames, ← hc]
      have := ih h.2
      simp only [List.mem_filterMap] at this ⊢
      rintro ⟨x, hx, hxe⟩
      rcases List.mem_cons.mp hx with rfl | hx
      · simp at hxe; exact hv hxe.symm
      · exact this ⟨x, hx, hxe⟩

theorem registered_collectors (l : APIServiceLister) (g : Globals) (h : Unregistered g) :
    (registered l g).registry.collectors = [newAPIServiceStatusCollector l] := by
  have h0 := collectors_of_no_gauge_name g.registry h.2.1
  unfold Registry.collectors at h0 ⊢
  simp [registered, List.filterMap_append, h0]

theorem registered_counters (l : APIServiceLister) (g : Globals) (h : Unregistered g) :
    (registered l g).registry.counters.count unavailableCounter = 1 := by
  have h0 := counters_of_no_counter_name g.registry h.2.2
  have h1 : (registered l g).registry.counters = g.registry.counters ++ [unavailableCounter] := by
    unfold Registry.counters
    simp [registered, List.filterMap_append]
  rw [h1, List.count_append, List.count_eq_zero_of_not_mem h0]
  simp

theorem passes_fst (c : apiServiceStatusCollector) (ws : List World) : (passes c ws).1 = c := by
  induction ws generalizing c with
  | nil => rfl
  | cons w t ih => simp [passes, ih, CollectWithStability_eq]

theorem unregistered_initialGlobals : Unregistered initialGlobals :=
  ⟨rfl, by simp [initialGlobals, Registry.names], by simp [initialGlobals, Registry.names]⟩

/-! ## The collection contract -/

/-- C1: an entity of the listed snapshot whose Available condition evaluates
true gets exactly one sample in a pass of `CollectWithStability`: the sample at
its position is the gauge sample of the unavailability descriptor labelled with
its name and valued 0, the pass emits as many samples under that name as the
snapshot has entities of that name, and when names are unique in the snapshot
that sample is the only one under its name. -/
theorem available_entity_emits_zero (c : apiServiceStatusCollector) (w : World) (i : Nat)
    (E : APIService) (hE : (snapshot c w)[i]? = some E)
    (hA : IsAPIServiceConditionTrue E Available = true) :
    (passSamples c w).length = (snapshot c w).length ∧
    (passSamples c w)[i]? = some
      { desc := unavailableGaugeDesc, valueType := ValueType.GaugeValue, value := 0,
        labelValues := [E.Name] } ∧
    ((passSamples c w).filter (fun m => m.labelValues = [E.Name])).length =
      ((snapshot c w).filter (fun e => e.Name = E.Name)).length ∧
    (((snapshot c w).map (fun e => e.Name)).Nodup →
      (passSamples c w).filter (fun m => m.labelValues = [E.Name]) =
        [{ desc := unavailableGaugeDesc, valueType := ValueType.GaugeValue, value := 0,
           labelValues := [E.Name] }]) :=
  entity_sample c w i E 0 hE (sampleOf_of_true E hA)

theorem available_entity_emits_zero_witness :
    (snapshot testCollector testWorld)[0]? = some availableAPIService ∧
    IsAPIServiceConditionTrue availableAPIService Available = true ∧
    (passSamples testCollector testWorld)[0]? = some
      { desc := unavailableGaugeDesc, valueType := ValueType.GaugeValue, value := 0,
        labelValues := ["available"] } :=
  ⟨rfl, by decide,
    (available_entity_emits_zero testCollector testWorld 0 availableAPIService rfl
      (by decide)).2.1⟩

/-- C2: an entity of the listed snapshot whose Available condition does not
evaluate true (the evaluator answers false; the condition list is empty; no
condition of type Available is there; the Available condition has status
False, Unknown or any other non-true value) gets exactly one sample in a pass
of `CollectWithStability`: the sample at its position is the gauge sample
labelled with its name and valued 1, and the pass returns its samples, one per
listed entity. -/
theorem unavailable_entity_emits_one (c : apiServiceStatusCollector) (w : World) (i : Nat)
    (E : APIService) (hE : (snapshot c w)[i]? = some E)
    (hA : IsAPIServiceConditionTrue E Available = false ∨
      E.Status.Conditions = [] ∨
      (∀ x ∈ E.Status.Conditions, x.Type_ ≠ Available) ∨
      (∃ x, GetAPIServiceConditionByType E Available = some x ∧
        (x.Status = ConditionFalse ∨ x.Status = ConditionUnknown ∨ x.Status ≠ ConditionTrue))) :
    (passSamples c w).length = (snapshot c w).length ∧
    (passSamples c w)[i]? = some
      { desc := unavailableGaugeDesc, valueType := ValueType.GaugeValue, value := 1,
        labelValues := [E.Name] } ∧
    ((passSamples c w).filter (fun m => m.labelValues = [E.Name])).length =
      ((snapshot c w).filter (fun e => e.Name = E.Name)).length ∧
    (((snapshot c w).map (fun e => e.Name)).Nodup →
      (passSamples c w).filter (fun m => m.labelValues = [E.Name]) =
        [{ desc := unavailableGaugeDesc, valueType := ValueType.GaugeValue, value := 1,
           labelValues := [E.Name] }]) :=
  entity_sample c w i E 1 hE (sampleOf_of_false E (not_true_cases E hA))

theorem unavailable_entity_emits_one_witness :
    (snapshot testCollector testWorld)[1]? = some unavailableAPIService ∧
    (∃ x, GetAPIServiceConditionByType unavailableAPIService Available = some x ∧
      (x.Status = ConditionFalse ∨ x.Status = ConditionUnknown ∨ x.Status ≠ ConditionTrue)) ∧
    (passSamples testCollector testWorld)[1]? = some
      { desc := unavailableGaugeDesc, valueType := ValueType.GaugeValue, value := 1,
        labelValues := ["unavailable"] } :=
  ⟨rfl, ⟨{ Type_ := Available, Status := ConditionFalse }, rfl, Or.inl rfl⟩,
    (unavailable_entity_emits_one testCollector testWorld 1 unavailableAPIService rfl
      (Or.inr (Or.inr (Or.inr
        ⟨{ Type_ := Available, Status := ConditionFalse }, rfl, Or.inl rfl⟩)))).2.1⟩

/-- C3: one pass of `CollectWithStability` sends, after what the channel
already held, exactly as many samples as the snapshot has entities; the sample
at each position carries the name of the entity at that position; under every
name there are as many samples as entities; and when names are unique in the
snapshot no two samples carry the same label. -/
theorem sample_count_eq_entity_count (c : apiServiceStatusCollector) (ch : List Metric)
    (w : World) :
    (CollectWithStability c ch w).2.1 = ch ++ passSamples c w ∧
    (passSamples c w).length = (snapshot c w).length ∧
    (∀ (i : Nat) (E : APIService), (snapshot c w)[i]? = some E →
      ∃ m, (passSamples c w)[i]? = some m ∧ m.labelValues = [E.Name]) ∧
    (∀ n : String, ((passSamples c w).filter (fun m => m.labelValues = [n])).length =
      ((snapshot c w).filter (fun e => e.Name = n)).length) ∧
    (((snapshot c w).map (fun e => e.Name)).Nodup →
      ((passSamples c w).map (fun m => m.labelValues)).Nodup) := by
  rw [passSamples_eq]
  refine ⟨by simp [CollectWithStability_eq], by simp, ?_, ?_, ?_⟩
  · intro i E hE
    exact ⟨sampleOf E, by simp [List.getElem?_map, hE], rfl⟩
  · intro n
    rw [filter_label_map]; simp
  · intro hn
    have : (List.map sampleOf (snapshot c w)).map (fun m => m.labelValues) =
        ((snapshot c w).map (fun e => e.Name)).map (fun n => [n]) := by
      simp [List.map_map, Function.comp_def, sampleOf_labelValues]
    rw [this]
    exact hn.map (fun a b h => by simpa using h)

/-- C5: every sample a pass of `CollectWithStability` emits carries as its name
label the name of an entity of the snapshot; a name no entity of the snapshot
has labels no sample; and a pass over an empty snapshot emits nothing. -/
theorem samples_only_for_listed_entities (c : apiServiceStatusCollector) (w : World) :
    (∀ m ∈ passSamples c w, ∃ E ∈ snapshot c w, m.labelValues = [E.Name]) ∧
    (∀ n : String, (∀ E ∈ snapshot c w, E.Name ≠ n) →
      ∀ m ∈ passSamples c w, n ∉ m.labelValues) ∧
    (snapshot c w = [] → passSamples c w = [] ∧ (CollectWithStability c [] w).2.1 = []) := by
  rw [show (CollectWithStability c [] w).2.1 = passSamples c w from rfl, passSamples_eq]
  refine ⟨?_, ?_, ?_⟩
  · intro m hm
    obtain ⟨E, hE, rfl⟩ := List.mem_map.mp hm
    exact ⟨E, hE, rfl⟩
  · intro n hn m hm
    obtain ⟨E, hE, rfl⟩ := List.mem_map.mp hm
    simpa [sampleOf_labelValues] using fun h => hn E hE h.symm
  · intro h
    simp [h]

/-- C4, the input that refutes it: the view answers `List` with one entity and
an error, and the pass emits the sample of that entity, not zero samples. -/
theorem list_error_with_entities_emits_samples :
    (failingWorld.views testCollector.apiServiceLister Selector.Everything).2 =
      some "list failed" ∧
    passSamples testCollector failingWorld =
      [{ desc := unavailableGaugeDesc, valueType := ValueType.GaugeValue, value := 0,
         labelValues := ["available"] }] ∧
    passSamples testCollector failingWorld ≠ [] := by
  have h : passSamples testCollector failingWorld =
      [{ desc := unavailableGaugeDesc, valueType := ValueType.GaugeValue, value := 0,
         labelValues := ["available"] }] := by
    rw [passSamples_eq]
    rfl
  exact ⟨rfl, h, by rw [h]; exact List.cons_ne_nil _ _⟩

/-- C4 as amended: when `List` returns an error, `CollectWithStability` drops
it: the pass returns, leaves the collector as it was, and emits one sample per
entity of the list value that came with the error, the same samples as for
that list without an error; it emits zero samples exactly when that list is
empty. -/
theorem list_error_is_dropped (c : apiServiceStatusCollector) (ch : List Metric) (w : World)
    (e : error) (h : (w.views c.apiServiceLister Selector.Everything).2 = some e) :
    (CollectWithStability c ch w).1 = c ∧
    (CollectWithStability c ch w).2.1 = ch ++ passSamples c w ∧
    (passSamples c w).length = (snapshot c w).length ∧
    (passSamples c w = [] ↔ snapshot c w = []) ∧
    (∀ w1 : World, w1.views c.apiServiceLister Selector.Everything = (snapshot c w, none) →
      passSamples c w1 = passSamples c w) := by
  have _ := h
  refine ⟨by simp [CollectWithStability_eq], by simp [CollectWithStability_eq, passSamples_eq],
    by simp [passSamples_eq], by simp [passSamples_eq], ?_⟩
  intro w1 h1
  simp [passSamples_eq, snapshot, h1]

theorem list_error_is_dropped_witness :
    (failingWorld.views testCollector.apiServiceLister Selector.Everything).2 =
      some "list failed" ∧
    (passSamples testCollector failingWorld).length = 1 :=
  ⟨rfl, (list_error_is_dropped testCollector [] failingWorld "list failed" rfl).2.2.1⟩

/-- C6: for every collector, channel and world, `DescribeWithStability` sends
exactly one descriptor, `unavailableGaugeDesc` (name
aggregator_unavailable_apiservice, label names [name], stability ALPHA), and
leaves the collector and the world, with its views and its record of `List`
calls, as they were; a pass of `CollectWithStability` after it does what it
does without it, and after a pass it still sends that one descriptor. -/
theorem describe_sends_one_descriptor (c : apiServiceStatusCollector) (ch : List Desc)
    (mch : List Metric) (w : World) :
    DescribeWithStability c ch w = (c, ch ++ [unavailableGaugeDesc], w) ∧
    unavailableGaugeDesc.fqName = "aggregator_unavailable_apiservice" ∧
    unavailableGaugeDesc.variableLabels = ["name"] ∧
    unavailableGaugeDesc.stabilityLevel = StabilityLevel.ALPHA ∧
    (DescribeWithStability c ch w).2.2.listCalls = w.listCalls ∧
    CollectWithStability (DescribeWithStability c ch w).1 mch (DescribeWithStability c ch w).2.2 =
      CollectWithStability c mch w ∧
    DescribeWithStability (CollectWithStability c mch w).1 ch (CollectWithStability c mch w).2.2 =
      ((CollectWithStability c mch w).1, ch ++ [unavailableGaugeDesc],
        (CollectWithStability c mch w).2.2) :=
  ⟨rfl, rfl, rfl, rfl, rfl, rfl, rfl⟩

/-- C9: the samples of a pass of `CollectWithStability` are a function of the
list the lister returns at that call: after any number of earlier passes over
any earlier worlds the collector is the one it was, and its pass emits the same
samples as a pass of the fresh collector over any world with the same
snapshot; a pass changes neither the collector nor the views, and only appends
its samples to the channel. -/
theorem collect_is_stateless (c : apiServiceStatusCollector) (history : List World)
    (ch : List Metric) (w w1 : World) (h : snapshot c w = snapshot c w1) :
    (passes c history).1 = c ∧
    passSamples (passes c history).1 w = passSamples c w1 ∧
    (CollectWithStability c ch w).1 = c ∧
    (CollectWithStability c ch w).2.2.views = w.views ∧
    (CollectWithStability c ch w).2.1 = ch ++ passSamples c w := by
  refine ⟨passes_fst c history, ?_, by simp [CollectWithStability_eq],
    by simp [CollectWithStability_eq], by simp [CollectWithStability_eq, passSamples_eq]⟩
  rw [passes_fst, passSamples_eq, passSamples_eq, h]

theorem collect_is_stateless_witness :
    snapshot testCollector testWorld =
      snapshot testCollector (CollectWithStability testCollector [] testWorld).2.2 ∧
    passSamples (passes testCollector [testWorld, emptyWorld]).1 testWorld =
      passSamples testCollector (CollectWithStability testCollector [] testWorld).2.2 :=
  ⟨rfl, (collect_is_stateless testCollector [testWorld, emptyWorld] [] testWorld
    (CollectWithStability testCollector [] testWorld).2.2 rfl).2.1⟩

/-! ## The registration contract -/

/-- C7: from the unregistered state, in a sequence of one or more calls of
`Register` with any listers every call returns without a panic and leaves the
same state: the registry of before with one status collector and the
unavailable counter attached by the first call, one of each.  A further call
in that state changes nothing. -/
theorem register_is_idempotent (l1 : APIServiceLister) (ls : List APIServiceLister)
    (g : Globals) (h : Unregistered g) :
    registerCalls (l1 :: ls) g =
      List.replicate (ls.length + 1) (Except.ok (registered l1 g)) ∧
    Register l1 g = Except.ok (registered l1 g) ∧
    (registered l1 g).registry.attached = g.registry.attached ++
      [Registrable.stableCollector (newAPIServiceStatusCollector l1),
       Registrable.counterVec unavailableCounter] ∧
    (registered l1 g).registry.collectors.length = 1 ∧
    (registered l1 g).registry.counters.count unavailableCounter = 1 ∧
    (∀ l : APIServiceLister, Register l (registered l1 g) = Except.ok (registered l1 g)) :=
  ⟨registerCalls_of_unregistered l1 ls g h, Register_of_unregistered l1 g h, rfl,
    by rw [registered_collectors l1 g h]; rfl, registered_counters l1 g h,
    fun l => Register_of_done l (registered l1 g) rfl⟩

theorem register_is_idempotent_witness :
    Unregistered initialGlobals ∧
    registerCalls [testLister, otherLister, testLister] initialGlobals =
      [Except.ok (registered testLister initialGlobals),
       Except.ok (registered testLister initialGlobals),
       Except.ok (registered testLister initialGlobals)] :=
  ⟨unregistered_initialGlobals,
    (register_is_idempotent testLister [otherLister, testLister] initialGlobals
      unregistered_initialGlobals).1⟩

/-- C10: from the unregistered state, after any sequence of calls of `Register`
with listers l1, l2, ..., the one status collector in the registry holds l1;
a pass of it makes one `List` call, to l1, so every `List` call on record
after the pass was on record before it or is a call to l1; and its samples
depend on the view of l1 only. -/
theorem registered_collector_reads_first_lister (l1 : APIServiceLister)
    (ls : List APIServiceLister) (g : Globals) (h : Unregistered g) :
    (registerCalls (l1 :: ls) g).length = ls.length + 1 ∧
    (∀ r ∈ registerCalls (l1 :: ls) g, r = Except.ok (registered l1 g)) ∧
    (registered l1 g).registry.collectors = [newAPIServiceStatusCollector l1] ∧
    (∀ c ∈ (registered l1 g).registry.collectors, c.apiServiceLister = l1 ∧
      ∀ (ch : List Metric) (w : World),
        (CollectWithStability c ch w).2.2.listCalls =
          w.listCalls ++ [(l1, Selector.Everything)] ∧
        (∀ (l : APIServiceLister) (sel : Selector),
          (l, sel) ∈ (CollectWithStability c ch w).2.2.listCalls →
            (l, sel) ∈ w.listCalls ∨ l = l1) ∧
        (∀ w1 : World, w1.views l1 Selector.Everything = w.views l1 Selector.Everything →
          (CollectWithStability c ch w1).2.1 = (CollectWithStability c ch w).2.1)) := by
  refine ⟨?_, ?_, registered_collectors l1 g h, ?_⟩
  · simp [registerCalls_of_unregistered l1 ls g h]
  · intro r hr
    rw [registerCalls_of_unregistered l1 ls g h] at hr
    exact List.eq_of_mem_replicate hr
  · intro c hc
    rw [registered_collectors l1 g h] at hc
    have hc1 : c = newAPIServiceStatusCollector l1 := by simpa using hc
    subst hc1
    refine ⟨rfl, ?_⟩
    intro ch w
    refine ⟨by simp [CollectWithStability_eq, newAPIServiceStatusCollector], ?_, ?_⟩
    · intro l sel hm
      simp only [CollectWithStability_eq, newAPIServiceStatusCollector, List.mem_append,
        List.mem_singleton, Prod.mk.injEq] at hm
      rcases hm with hm | hm
      · exact Or.inl hm
      · exact Or.inr hm.1
    · intro w1 h1
      simp [CollectWithStability_eq, snapshot, newAPIServiceStatusCollector, h1]

theorem registered_collector_reads_first_lister_witness :
    Unregistered initialGlobals ∧
    (registered testLister initialGlobals).registry.collectors =
      [newAPIServiceStatusCollector testLister] :=
  ⟨unregistered_initialGlobals,
    (registered_collector_reads_first_lister testLister [otherLister] initialGlobals
      unregistered_initialGlobals).2.2.1⟩

end apiserver
